import Mathlib

/-!
# Verification of the battery-checker core (`i1_battery_checker.py`)

Shallow embedding of the evaluation-and-notification engine of the
AppDaemon battery checker.  Python strings are Lean `String`s; battery
readings and thresholds are `ℚ` (every value `float()` produces from a
decimal literal is an exact rational in our model); epoch timestamps are
`ℤ` (whole seconds — every quantity the code compares timestamps against
is an integer number of seconds, and a timezone is a fixed UTC offset in
seconds); the dictionary from recipient address to timestamp is a
function `String → ℤ` whose value models `dict.get(key, 0)` (the only
read access the code performs).  Delivery through `call_service` is
modelled by an oracle `String → Bool` giving success or failure per
address; time is a `now` parameter per dispatch call (the code calls
`time.time()` twice in one loop iteration, before the
suppression check and after the send; both are the same `now` here).
-/

namespace BatteryCheck

/-- The attribute keys the code reads from an entity's free-form
attribute mapping (`device_class`, `friendly_name`,
`unit_of_measurement`); a missing key is `none`
(`attributes.get(...)`). -/
structure Attributes where
  device_class : Option String
  friendly_name : Option String
  unit_of_measurement : Option String
deriving DecidableEq, Repr

/-- One device-state record: `entity.get("state")` and the attribute
mapping.  A `none` state models Python `None`. -/
structure EntityState where
  state : Option String
  attributes : Attributes
deriving DecidableEq, Repr

/-- One configured recipient: `person.get("name")`,
`person.get("notify")` and `person.get("cooldown", 0)`.  Cooldown is in
seconds; the source applies `int(cooldown)` before comparing, which is
the identity on our integer model. -/
structure Person where
  name : Option String
  notify : Option String
  cooldown : ℤ
deriving DecidableEq, Repr

/-- The configuration surface used by the scan path. -/
structure Config where
  persons : List Person
  exclude_list : List String
  low_battery_threshold : ℚ
  critical_battery_threshold : ℚ
deriving DecidableEq, Repr

/-! ## Python `float()` parsing and `str(float)` rendering

`float(state)` on the decimal literals Home Assistant produces: optional
sign, integer digits, optional fractional part.  Parse failure
(`ValueError`) is `none`.  `f"{battery_level}"` renders the float the way
Python `repr` renders an exactly-decimal value: minimal digits with at
least one fractional digit (`5` ↦ `"5.0"`, `15.5` ↦ `"15.5"`). -/

/-- Numeric value of a digit string (most significant first). -/
def digitsToNat (l : List Char) : ℕ :=
  l.foldl (fun acc c => acc * 10 + (c.toNat - 48)) 0

/-- Models Python `float(s)` on plain decimal literals (the exact
rational value of the literal; built with `Rat.divInt` so that concrete
inputs evaluate by kernel reduction). -/
def parseFloat (s : String) : Option ℚ :=
  let cs := s.toList
  let signed : ℤ × List Char :=
    match cs with
    | '-' :: r => (-1, r)
    | '+' :: r => (1, r)
    | r => (1, r)
  let intPart := signed.2.takeWhile (fun c => c.isDigit)
  let after := signed.2.dropWhile (fun c => c.isDigit)
  match after with
  | [] =>
    if intPart.isEmpty then none
    else some (Rat.divInt (signed.1 * (digitsToNat intPart : ℤ)) 1)
  | '.' :: frac =>
    if frac.all (fun c => c.isDigit) && !(intPart.isEmpty && frac.isEmpty) then
      some (Rat.divInt
        (signed.1 * ((digitsToNat intPart : ℤ) * (10 : ℤ) ^ frac.length + (digitsToNat frac : ℤ)))
        ((10 : ℤ) ^ frac.length))
    else none
  | _ => none

/-- Smallest `k ≤ d` with `d ∣ 10 ^ k` (every denominator produced by
`parseFloat` has one). -/
def pow10Exponent (d : ℕ) : ℕ :=
  (((List.range (d + 1)).find? (fun k => 10 ^ k % d == 0)).getD 0)

/-- Left-pad a numeral with zeros to the given width. -/
def padZeros (s : String) (width : ℕ) : String :=
  String.mk (List.replicate (width - s.length) '0') ++ s

/-- Models the Python f-string rendering `f"{battery_level}"` of a float
holding an exactly-decimal value: minimal decimal digits, at least one
fractional digit. -/
def renderPyFloat (q : ℚ) : String :=
  let sign := if q.num < 0 then "-" else ""
  let k := max (pow10Exponent q.den) 1
  let scaled := q.num.natAbs * 10 ^ k / q.den
  sign ++ toString (scaled / 10 ^ k) ++ "." ++ padZeros (toString (scaled % 10 ^ k)) k

/-! ## Entity classification and evaluation -/

/-- The needle list is an initial segment of the haystack list. -/
def hasPfx : List Char → List Char → Bool
  | [], _ => true
  | _ :: _, [] => false
  | a :: as, b :: bs => a == b && hasPfx as bs

/-- The needle list occurs contiguously in the haystack list (Python's
`in` on strings). -/
def hasSub (needle : List Char) : List Char → Bool
  | [] => needle.isEmpty
  | b :: bs => hasPfx needle (b :: bs) || hasSub needle bs

/-- Python `str.lower()` on the identifiers the checker sees (ASCII
case folding, character by character). -/
def lowerChars (s : String) : List Char :=
  s.toList.map Char.toLower

/-- `term in entity_key.lower()` for a lowercase search term. -/
def containsTerm (entity_key term : String) : Bool :=
  hasSub term.toList (lowerChars entity_key)

/-- `_is_battery_binary_sensor`: binary-sensor namespace and one of the
battery terms in the lowercased identifier. -/
def is_battery_binary_sensor (entity_key : String) : Bool :=
  if !hasPfx "binary_sensor.".toList entity_key.toList then false
  else
    ["battery", "batt", "islow", "low_battery"].any (containsTerm entity_key)

/-- `_evaluate_battery_level`: parse the state as a float and append one
description line to the critical or the low list; an unparseable state
(caught `ValueError`/`TypeError`) leaves both lists unchanged. -/
def evaluate_battery_level (cfg : Config) (entity_key state : String)
    (attributes : Attributes) (acc : List String × List String) :
    List String × List String :=
  match parseFloat state with
  | none => acc
  | some battery_level =>
    let device_name := attributes.friendly_name.getD entity_key
    if battery_level ≤ cfg.critical_battery_threshold then
      (acc.1 ++ ["• " ++ device_name ++ ": " ++ renderPyFloat battery_level ++ "%"], acc.2)
    else if battery_level ≤ cfg.low_battery_threshold then
      (acc.1, acc.2 ++ ["• " ++ device_name ++ ": " ++ renderPyFloat battery_level ++ "%"])
    else acc

/-- `_check_battery_sensor`: skip companion sensors
(charging_status/recharge/power in the identifier), skip
unavailable/unknown/None states, otherwise evaluate `str(state)`
numerically.  The `unit_of_measurement` attribute is read only for the
log line and does not affect the lists. -/
def check_battery_sensor (cfg : Config) (entity_key : String) (entity : EntityState)
    (acc : List String × List String) : List String × List String :=
  if ["charging_status", "recharge", "power"].any (containsTerm entity_key) then acc
  else
    match entity.state with
    | none => acc
    | some st =>
      if st = "unavailable" ∨ st = "unknown" then acc
      else evaluate_battery_level cfg entity_key st entity.attributes acc

/-- `_check_battery_binary_sensor`: an `"on"` state appends a critical
line when the identifier contains `islow` (case-insensitively), else a
low line; any other state appends nothing. -/
def check_battery_binary_sensor (entity_key : String) (entity : EntityState)
    (acc : List String × List String) : List String × List String :=
  if entity.state = some "on" then
    let device_name := entity.attributes.friendly_name.getD entity_key
    if containsTerm entity_key "islow" then
      (acc.1 ++ ["• " ++ device_name ++ ": KRITISK LÅG BATTERI"], acc.2)
    else
      (acc.1, acc.2 ++ ["• " ++ device_name ++ ": Lågt batteri"])
  else acc

/-! ## The daily scan (Report Aggregator) -/

/-- `states.get(entity_key)`: first entry with the key, if any. -/
def lookup_entity (states : List (String × EntityState)) (entity_key : String) :
    Option EntityState :=
  (states.find? (fun kv => kv.1 == entity_key)).map Prod.snd

/-- One iteration of the `for entity_key in sorted(states)` loop body. -/
def scan_entity (cfg : Config) (states : List (String × EntityState))
    (acc : List String × List String) (entity_key : String) :
    List String × List String :=
  if entity_key ∈ cfg.exclude_list then acc
  else
    match lookup_entity states entity_key with
    | none => acc
    | some entity =>
      if entity.attributes.device_class = some "battery" then
        check_battery_sensor cfg entity_key entity acc
      else if is_battery_binary_sensor entity_key then
        check_battery_binary_sensor entity_key entity acc
      else acc

/-- Python's string comparison: lexicographic on code points. -/
def lexLe : List Char → List Char → Bool
  | [], _ => true
  | _ :: _, [] => false
  | a :: as, b :: bs =>
    if a.toNat < b.toNat then true
    else if b.toNat < a.toNat then false
    else lexLe as bs

/-- `a <= b` for Python strings. -/
def key_le (a b : String) : Bool :=
  lexLe a.toList b.toList

/-- The scan's identifier iteration order: `sorted(states)`. -/
def sorted_keys (states : List (String × EntityState)) : List String :=
  List.insertionSort (fun a b : String => key_le a b = true) (states.map Prod.fst)

/-- The aggregation performed by `daily_battery_check`: walk the sorted
identifiers and collect the `(critical_devices, low_devices)` lists. -/
def aggregate_findings (cfg : Config) (states : List (String × EntityState)) :
    List String × List String :=
  (sorted_keys states).foldl (scan_entity cfg states) ([], [])

/-! ## Notification composition (`_send_battery_notifications`) -/

/-- The `message_parts` list built by `_send_battery_notifications`:
critical heading and lines followed by a spacing line, then low heading
and lines; an empty bucket contributes nothing. -/
def message_parts (critical_devices low_devices : List String) : List String :=
  (if critical_devices.isEmpty then []
   else ["🚨 KRITISK LÅG BATTERI:"] ++ critical_devices ++ [""]) ++
  (if low_devices.isEmpty then []
   else ["⚠️ Lågt batteri:"] ++ low_devices)

/-- `_send_battery_notifications` up to the delivery call: `none` when
both lists are empty (early return, nothing sent), otherwise the title
and joined body handed to `_notify_persons`. -/
def send_battery_notifications (critical_devices low_devices : List String) :
    Option (String × String) :=
  if critical_devices.isEmpty ∧ low_devices.isEmpty then none
  else some ("Batterivarning", String.intercalate "\n" (message_parts critical_devices low_devices))

/-! ## Recipient dispatch (`_notify_persons`) -/

/-- `self.msg_cooldown` as accessed by the code: `get(addr, 0)` and item
assignment.  The function gives the stored timestamp, `0` when unset. -/
def CooldownState : Type := String → ℤ

/-- Item assignment `msg_cooldown[addr] = t`. -/
def set_cooldown (st : CooldownState) (addr : String) (t : ℤ) : CooldownState :=
  fun x => if x = addr then t else st x

/-- One iteration of the `for person in self.persons` loop of
`_notify_persons`: skip on missing/empty address, skip silently when the
cooldown is positive and `now - msg_cooldown.get(addr, 0)` is below it,
otherwise attempt delivery through the oracle; a successful send records
`(addr, true)` and sets the cooldown to `now`, a raised delivery failure
records `(addr, false)` and changes nothing. -/
def notify_step (deliver : String → Bool) (now : ℤ) (st : CooldownState)
    (person : Person) : CooldownState × List (String × Bool) :=
  match person.notify with
  | none => (st, [])
  | some addr =>
    if addr = "" then (st, [])
    else if 0 < person.cooldown ∧ now - st addr < person.cooldown then (st, [])
    else if deliver addr then (set_cooldown st addr now, [(addr, true)])
    else (st, [(addr, false)])

/-- `_notify_persons`: fold the loop body over the configured persons in
order, returning the final cooldown state and the delivery attempts
`(address, success)` in loop order. -/
def notify_persons (persons : List Person) (deliver : String → Bool) (now : ℤ)
    (st : CooldownState) : CooldownState × List (String × Bool) :=
  match persons with
  | [] => (st, [])
  | p :: ps =>
    let r := notify_step deliver now st p
    let rest := notify_persons ps deliver now r.1
    (rest.1, r.2 ++ rest.2)

/-- A sequence of dispatch invocations: each call supplies its `now` and
its delivery oracle; attempts are tagged with the call's `now`. -/
def run_dispatches (persons : List Person) (calls : List (ℤ × (String → Bool)))
    (st : CooldownState) : CooldownState × List (ℤ × String × Bool) :=
  match calls with
  | [] => (st, [])
  | (now, deliver) :: rest =>
    let r := notify_persons persons deliver now st
    let r2 := run_dispatches persons rest r.1
    (r2.1, r.2.map (fun e => (now, e)) ++ r2.2)

/-- The attempts of one call that are successful sends to `a`. -/
def sends_to (a : String) (evs : List (String × Bool)) : List (String × Bool) :=
  evs.filter (fun e => e.1 == a && e.2)

/-- The times of the successful sends to `a` over a dispatch sequence. -/
def sent_times_to (a : String) (evs : List (ℤ × String × Bool)) : List ℤ :=
  (evs.filter (fun e => e.2.1 == a && e.2.2)).map Prod.fst

/-! ## Acknowledgement handling (`phone_action`) -/

/-- Python `str.split(".")`: cut the character list at every dot. -/
def splitOnDot : List Char → List (List Char)
  | [] => [[]]
  | c :: rest =>
    match splitOnDot rest with
    | [] => [[]]
    | s :: ss => if c = '.' then [] :: s :: ss else (c :: s) :: ss

/-- `str(data.get("action", "")).split(".")` on the action token. -/
def splitDot (s : String) : List String :=
  (splitOnDot s.toList).map String.mk

/-- The actionable directive embedded by `_notify_persons`:
`f"{self.name}.ignore.{notify_addr}"`. -/
def action_directive (app_name notify_addr : String) : String :=
  app_name ++ ".ignore." ++ notify_addr

/-- `datetime(dt_now.year, dt_now.month, dt_now.day, tzinfo=tz).timestamp()`
for a timezone modelled as a fixed UTC offset in seconds and epoch
timestamps modelled in whole seconds: the epoch instant of the start of
the current local day (floor of local time to a day boundary). -/
def start_of_day_epoch (tz_offset now : ℤ) : ℤ :=
  (now + tz_offset) / 86400 * 86400 - tz_offset

/-- `phone_action`: split the token on dots; tokens with fewer than three
segments or a first segment different from the app name are ignored;
verb `"ignore"` sets the cooldown entry keyed by the third segment to
start-of-current-day plus three days (259200 seconds). -/
def phone_action (app_name : String) (tz_offset now : ℤ) (token : String)
    (st : CooldownState) : CooldownState :=
  match splitDot token with
  | a0 :: a1 :: a2 :: _ =>
    if a0 ≠ app_name then st
    else if a1 = "ignore" then
      set_cooldown st a2 (start_of_day_epoch tz_offset now + 259200)
    else st
  | _ => st

/-! ## Instrumented aggregator

`daily_battery_check` appends plain description strings, so the source
identifier of a finding is not recoverable from the output lists.  To
state exclusion and ordering per source entity, the per-entity
contribution of the loop body is factored out (at most one line, to
exactly one bucket — `true` for critical) and the scan is re-expressed
over `(identifier, bucket, line)` triples; the equivalence with
`aggregate_findings` is proved below. -/

/-- Append an optional contribution to the accumulated pair of lists
(`true` is the critical bucket). -/
def applyContribution (acc : List String × List String) :
    Option (Bool × String) → List String × List String
  | none => acc
  | some (true, d) => (acc.1 ++ [d], acc.2)
  | some (false, d) => (acc.1, acc.2 ++ [d])

/-- The optional line `_evaluate_battery_level` produces. -/
def eval_contribution (cfg : Config) (entity_key state : String)
    (attributes : Attributes) : Option (Bool × String) :=
  match parseFloat state with
  | none => none
  | some battery_level =>
    let device_name := attributes.friendly_name.getD entity_key
    if battery_level ≤ cfg.critical_battery_threshold then
      some (true, "• " ++ device_name ++ ": " ++ renderPyFloat battery_level ++ "%")
    else if battery_level ≤ cfg.low_battery_threshold then
      some (false, "• " ++ device_name ++ ": " ++ renderPyFloat battery_level ++ "%")
    else none

/-- The optional line `_check_battery_sensor` produces. -/
def sensor_contribution (cfg : Config) (entity_key : String) (entity : EntityState) :
    Option (Bool × String) :=
  if ["charging_status", "recharge", "power"].any (containsTerm entity_key) then none
  else
    match entity.state with
    | none => none
    | some st =>
      if st = "unavailable" ∨ st = "unknown" then none
      else eval_contribution cfg entity_key st entity.attributes

/-- The optional line `_check_battery_binary_sensor` produces. -/
def binary_contribution (entity_key : String) (entity : EntityState) :
    Option (Bool × String) :=
  if entity.state = some "on" then
    let device_name := entity.attributes.friendly_name.getD entity_key
    if containsTerm entity_key "islow" then
      some (true, "• " ++ device_name ++ ": KRITISK LÅG BATTERI")
    else
      some (false, "• " ++ device_name ++ ": Lågt batteri")
  else none

/-- The single optional line the loop body produces for one entity. -/
def entity_contribution (cfg : Config) (entity_key : String) (entity : EntityState) :
    Option (Bool × String) :=
  if entity.attributes.device_class = some "battery" then
    sensor_contribution cfg entity_key entity
  else if is_battery_binary_sensor entity_key then
    binary_contribution entity_key entity
  else none

/-- Contribution of one identifier in the scan: excluded or absent
identifiers and irrelevant entities contribute nothing. -/
def key_contribution (cfg : Config) (states : List (String × EntityState))
    (entity_key : String) : Option (Bool × String) :=
  if entity_key ∈ cfg.exclude_list then none
  else (lookup_entity states entity_key).bind (entity_contribution cfg entity_key)

/-- Contribution of one identifier, tagged with the identifier. -/
def tagged_contribution (cfg : Config) (states : List (String × EntityState))
    (entity_key : String) : Option (String × Bool × String) :=
  (key_contribution cfg states entity_key).map (fun bd => (entity_key, bd))

/-- All findings of a scan, in scan order, tagged with their source
identifiers. -/
def tagged_findings (cfg : Config) (states : List (String × EntityState)) :
    List (String × Bool × String) :=
  (sorted_keys states).filterMap (tagged_contribution cfg states)

/-- The critical bucket of a tagged finding list. -/
def crit_of (l : List (String × Bool × String)) : List String :=
  (l.filter (fun x => x.2.1)).map (fun x => x.2.2)

/-- The low bucket of a tagged finding list. -/
def low_of (l : List (String × Bool × String)) : List String :=
  (l.filter (fun x => !x.2.1)).map (fun x => x.2.2)

/-! ### Equivalence of the scan with its instrumented form -/

theorem evaluate_battery_level_eq (cfg : Config) (entity_key state : String)
    (attributes : Attributes) (acc : List String × List String) :
    evaluate_battery_level cfg entity_key state attributes acc =
      applyContribution acc (eval_contribution cfg entity_key state attributes) := by
  unfold evaluate_battery_level eval_contribution
  cases parseFloat state with
  | none => rfl
  | some lvl =>
    dsimp only
    split_ifs <;> rfl

theorem check_battery_sensor_eq (cfg : Config) (entity_key : String)
    (entity : EntityState) (acc : List String × List String) :
    check_battery_sensor cfg entity_key entity acc =
      applyContribution acc (sensor_contribution cfg entity_key entity) := by
  unfold check_battery_sensor sensor_contribution
  split_ifs with h
  · rfl
  · cases entity.state with
    | none => rfl
    | some st =>
      dsimp only
      split_ifs with h2
      · rfl
      · exact evaluate_battery_level_eq cfg entity_key st entity.attributes acc

theorem check_battery_binary_sensor_eq (entity_key : String) (entity : EntityState)
    (acc : List String × List String) :
    check_battery_binary_sensor entity_key entity acc =
      applyContribution acc (binary_contribution entity_key entity) := by
  unfold check_battery_binary_sensor binary_contribution
  split_ifs <;> rfl

theorem scan_entity_eq (cfg : Config) (states : List (String × EntityState))
    (acc : List String × List String) (entity_key : String) :
    scan_entity cfg states acc entity_key =
      applyContribution acc (key_contribution cfg states entity_key) := by
  unfold scan_entity key_contribution
  by_cases hex : entity_key ∈ cfg.exclude_list
  · rw [if_pos hex, if_pos hex]
    rfl
  · rw [if_neg hex, if_neg hex]
    cases lookup_entity states entity_key with
    | none => rfl
    | some entity =>
      rw [Option.some_bind]
      dsimp only
      unfold entity_contribution
      by_cases h1 : entity.attributes.device_class = some "battery"
      · rw [if_pos h1, if_pos h1]
        exact check_battery_sensor_eq cfg entity_key entity acc
      · rw [if_neg h1, if_neg h1]
        by_cases h2 : is_battery_binary_sensor entity_key = true
        · rw [if_pos h2, if_pos h2]
          exact check_battery_binary_sensor_eq entity_key entity acc
        · rw [if_neg h2, if_neg h2]
          rfl

theorem foldl_scan_characterization (cfg : Config) (states : List (String × EntityState)) :
    ∀ (keys : List String) (acc : List String × List String),
      keys.foldl (scan_entity cfg states) acc =
        (acc.1 ++ crit_of (keys.filterMap (tagged_contribution cfg states)),
         acc.2 ++ low_of (keys.filterMap (tagged_contribution cfg states))) := by
  intro keys
  induction keys with
  | nil => intro acc; simp [crit_of, low_of]
  | cons k ks ih =>
    intro acc
    rw [List.foldl_cons, ih, scan_entity_eq, List.filterMap_cons]
    unfold tagged_contribution
    cases hkc : key_contribution cfg states k with
    | none => rfl
    | some bd =>
      rcases bd with ⟨b, d⟩
      cases b <;>
        simp [applyContribution, crit_of, low_of, List.filter_cons, List.append_assoc]

theorem aggregate_eq_tagged (cfg : Config) (states : List (String × EntityState)) :
    aggregate_findings cfg states =
      (crit_of (tagged_findings cfg states), low_of (tagged_findings cfg states)) := by
  unfold aggregate_findings tagged_findings
  rw [foldl_scan_characterization]
  simp

/-! ### Order facts about the scan iteration -/

theorem lexLe_total : ∀ as bs : List Char, lexLe as bs = true ∨ lexLe bs as = true := by
  intro as
  induction as with
  | nil => intro bs; left; rfl
  | cons a as ih =>
    intro bs
    cases bs with
    | nil => right; rfl
    | cons b bs =>
      unfold lexLe
      rcases Nat.lt_trichotomy a.toNat b.toNat with h | h | h
      · left
        rw [if_pos h]
      · rw [if_neg (by omega), if_neg (by omega), if_neg (by omega), if_neg (by omega)]
        exact ih bs
      · right
        rw [if_pos h]

theorem lexLe_trans : ∀ as bs cs : List Char,
    lexLe as bs = true → lexLe bs cs = true → lexLe as cs = true := by
  intro as
  induction as with
  | nil => intro bs cs _ _; rfl
  | cons a as ih =>
    intro bs cs hab hbc
    cases bs with
    | nil => exact absurd hab (by simp [lexLe])
    | cons b bs =>
      cases cs with
      | nil => exact absurd hbc (by simp [lexLe])
      | cons c cs =>
        unfold lexLe at hab hbc ⊢
        rcases Nat.lt_trichotomy a.toNat b.toNat with h1 | h1 | h1 <;>
          rcases Nat.lt_trichotomy b.toNat c.toNat with h2 | h2 | h2
        all_goals (
          first
          | (rw [if_pos (by omega)])
          | (rw [if_neg (by omega), if_neg (by omega)]
             rw [if_neg (by omega), if_neg (by omega)] at hab
             rw [if_neg (by omega), if_neg (by omega)] at hbc
             exact ih bs cs hab hbc)
          | (rw [if_pos h1] at hab <;> omega)
          | (exact absurd hbc (by rw [if_neg (by omega), if_pos (by omega)]; simp))
          | (exact absurd hab (by rw [if_neg (by omega), if_pos (by omega)]; simp)))

instance : IsTotal String (fun a b => key_le a b = true) :=
  ⟨fun a b => lexLe_total a.toList b.toList⟩

instance : IsTrans String (fun a b => key_le a b = true) :=
  ⟨fun a b c => lexLe_trans a.toList b.toList c.toList⟩

theorem sorted_keys_sorted (states : List (String × EntityState)) :
    List.Pairwise (fun a b => key_le a b = true) (sorted_keys states) :=
  List.sorted_insertionSort (fun a b : String => key_le a b = true) (states.map Prod.fst)

theorem tagged_keys_sublist (cfg : Config) (states : List (String × EntityState)) :
    ∀ keys : List String,
      ((keys.filterMap (tagged_contribution cfg states)).map (fun x => x.1)).Sublist keys := by
  intro keys
  induction keys with
  | nil => simp
  | cons k ks ih =>
    rw [List.filterMap_cons]
    cases h : tagged_contribution cfg states k with
    | none => exact ih.cons k
    | some x =>
      have hx1 : x.1 = k := by
        unfold tagged_contribution at h
        rw [Option.map_eq_some'] at h
        obtain ⟨bd, _, hbd⟩ := h
        rw [← hbd]
      rw [List.map_cons, hx1]
      exact ih.cons₂ k

/-! ## Theorems -/

/-- C1.  For `critical_threshold < low_threshold` and a reading `s`
parsing to the number `r`, `_evaluate_battery_level` classifies the
entity Critical exactly when `r ≤ critical_threshold` (one line appended
to the critical list), Low exactly when
`critical_threshold < r ≤ low_threshold` (one line appended to the low
list), and Normal otherwise (both lists unchanged); the linear order on
`ℚ` makes the three cases exhaustive and mutually exclusive, so each
implication is an equivalence. -/
theorem numeric_threshold_classification (cfg : Config) (entity_key s : String)
    (attributes : Attributes) (acc : List String × List String) (r : ℚ)
    (hth : cfg.critical_battery_threshold < cfg.low_battery_threshold)
    (hr : parseFloat s = some r) :
    (r ≤ cfg.critical_battery_threshold →
      evaluate_battery_level cfg entity_key s attributes acc =
        (acc.1 ++ ["• " ++ attributes.friendly_name.getD entity_key ++ ": " ++
          renderPyFloat r ++ "%"], acc.2)) ∧
    (cfg.critical_battery_threshold < r ∧ r ≤ cfg.low_battery_threshold →
      evaluate_battery_level cfg entity_key s attributes acc =
        (acc.1, acc.2 ++ ["• " ++ attributes.friendly_name.getD entity_key ++ ": " ++
          renderPyFloat r ++ "%"])) ∧
    (cfg.low_battery_threshold < r →
      evaluate_battery_level cfg entity_key s attributes acc = acc) := by
  unfold evaluate_battery_level
  rw [hr]
  dsimp only
  refine ⟨fun h1 => ?_, fun h2 => ?_, fun h3 => ?_⟩
  · rw [if_pos h1]
  · rw [if_neg (by linarith [h2.1]), if_pos h2.2]
  · rw [if_neg (by linarith), if_neg (by linarith)]

/-- Witness for C1 at thresholds (10, 20) and reading "5". -/
theorem numeric_threshold_classification_witness :
    ((10 : ℚ) < 20 ∧ parseFloat "5" = some 5) ∧
    (((5 : ℚ) ≤ 10 →
      evaluate_battery_level ⟨[], [], 20, 10⟩ "sensor.a" "5" ⟨some "battery", some "A", none⟩ ([], []) =
        ([] ++ ["• " ++ (Option.some "A").getD "sensor.a" ++ ": " ++ renderPyFloat 5 ++ "%"], [])) ∧
    ((10 : ℚ) < 5 ∧ (5 : ℚ) ≤ 20 →
      evaluate_battery_level ⟨[], [], 20, 10⟩ "sensor.a" "5" ⟨some "battery", some "A", none⟩ ([], []) =
        ([], [] ++ ["• " ++ (Option.some "A").getD "sensor.a" ++ ": " ++ renderPyFloat 5 ++ "%"])) ∧
    ((20 : ℚ) < 5 →
      evaluate_battery_level ⟨[], [], 20, 10⟩ "sensor.a" "5" ⟨some "battery", some "A", none⟩ ([], []) = ([], []))) :=
  ⟨⟨by norm_num, by decide⟩,
    numeric_threshold_classification ⟨[], [], 20, 10⟩ "sensor.a" "5"
      ⟨some "battery", some "A", none⟩ ([], []) 5 (by norm_num) (by decide)⟩

/-- C7.  `_send_battery_notifications` sends nothing exactly when both
finding lists are empty; otherwise the critical heading is in the message
parts iff the critical list is nonempty (likewise for the low heading,
so an empty section contributes no heading), and when both sections are
present the critical heading strictly precedes the low heading.  The
hypotheses only rule out a finding line being literally equal to a
heading (every real finding line starts with a bullet). -/
theorem compose_empty_iff_and_section_order (critical_devices low_devices : List String)
    (hch : "🚨 KRITISK LÅG BATTERI:" ∉ critical_devices ∧ "🚨 KRITISK LÅG BATTERI:" ∉ low_devices)
    (hlh : "⚠️ Lågt batteri:" ∉ critical_devices ∧ "⚠️ Lågt batteri:" ∉ low_devices) :
    (send_battery_notifications critical_devices low_devices = none ↔
      critical_devices = [] ∧ low_devices = []) ∧
    ("🚨 KRITISK LÅG BATTERI:" ∈ message_parts critical_devices low_devices ↔
      critical_devices ≠ []) ∧
    ("⚠️ Lågt batteri:" ∈ message_parts critical_devices low_devices ↔
      low_devices ≠ []) ∧
    (critical_devices ≠ [] → low_devices ≠ [] →
      (message_parts critical_devices low_devices).indexOf "🚨 KRITISK LÅG BATTERI:" <
        (message_parts critical_devices low_devices).indexOf "⚠️ Lågt batteri:") := by
  refine ⟨?_, ?_, ?_, ?_⟩
  · unfold send_battery_notifications
    constructor
    · intro h
      by_contra hne
      rw [if_neg (by simpa [List.isEmpty_iff] using hne)] at h
      exact Option.some_ne_none _ h
    · rintro ⟨h1, h2⟩
      rw [if_pos (by simp [h1, h2])]
  · unfold message_parts
    rcases eq_or_ne critical_devices [] with h | h <;>
      simp [h, hch.1, hch.2, List.isEmpty_iff]
  · unfold message_parts
    rcases eq_or_ne low_devices [] with h | h <;>
      simp [h, hlh.1, hlh.2, List.isEmpty_iff]
  · intro h1 h2
    unfold message_parts
    rw [if_neg (by simpa [List.isEmpty_iff] using h1),
        if_neg (by simpa [List.isEmpty_iff] using h2)]
    simp only [List.cons_append, List.nil_append, List.append_assoc]
    rw [List.indexOf_cons_self, List.indexOf_cons_ne _ (by decide)]
    exact Nat.succ_pos _

/-- Witness for C7 with one critical and one low finding. -/
theorem compose_empty_iff_and_section_order_witness :
    (("🚨 KRITISK LÅG BATTERI:" ∉ ["• A: 5.0%"] ∧ "🚨 KRITISK LÅG BATTERI:" ∉ ["• B: 15.0%"]) ∧
     ("⚠️ Lågt batteri:" ∉ ["• A: 5.0%"] ∧ "⚠️ Lågt batteri:" ∉ ["• B: 15.0%"])) ∧
    ((send_battery_notifications ["• A: 5.0%"] ["• B: 15.0%"] = none ↔
      ["• A: 5.0%"] = ([] : List String) ∧ ["• B: 15.0%"] = ([] : List String)) ∧
    ("🚨 KRITISK LÅG BATTERI:" ∈ message_parts ["• A: 5.0%"] ["• B: 15.0%"] ↔
      ["• A: 5.0%"] ≠ ([] : List String)) ∧
    ("⚠️ Lågt batteri:" ∈ message_parts ["• A: 5.0%"] ["• B: 15.0%"] ↔
      ["• B: 15.0%"] ≠ ([] : List String)) ∧
    (["• A: 5.0%"] ≠ ([] : List String) → ["• B: 15.0%"] ≠ ([] : List String) →
      (message_parts ["• A: 5.0%"] ["• B: 15.0%"]).indexOf "🚨 KRITISK LÅG BATTERI:" <
        (message_parts ["• A: 5.0%"] ["• B: 15.0%"]).indexOf "⚠️ Lågt batteri:")) :=
  ⟨⟨by decide, by decide⟩,
    compose_empty_iff_and_section_order ["• A: 5.0%"] ["• B: 15.0%"]
      (by decide) (by decide)⟩

/-- C8.  For a binary low-power indicator entity, an `"on"` state yields
exactly one finding: critical when the identifier contains `islow`
case-insensitively, low otherwise; the two phrases are distinct for any
display name; any state other than `"on"` yields no finding. -/
theorem binary_indicator_classification (entity_key : String) (entity : EntityState)
    (acc : List String × List String)
    (hb : is_battery_binary_sensor entity_key = true) :
    (entity.state = some "on" → containsTerm entity_key "islow" = true →
      check_battery_binary_sensor entity_key entity acc =
        (acc.1 ++ ["• " ++ entity.attributes.friendly_name.getD entity_key ++
          ": KRITISK LÅG BATTERI"], acc.2)) ∧
    (entity.state = some "on" → containsTerm entity_key "islow" = false →
      check_battery_binary_sensor entity_key entity acc =
        (acc.1, acc.2 ++ ["• " ++ entity.attributes.friendly_name.getD entity_key ++
          ": Lågt batteri"])) ∧
    (entity.state ≠ some "on" →
      check_battery_binary_sensor entity_key entity acc = acc) ∧
    ("• " ++ entity.attributes.friendly_name.getD entity_key ++ ": KRITISK LÅG BATTERI" ≠
      "• " ++ entity.attributes.friendly_name.getD entity_key ++ ": Lågt batteri") := by
  refine ⟨fun hon his => ?_, fun hon his => ?_, fun hoff => ?_, fun heq => ?_⟩
  · unfold check_battery_binary_sensor
    rw [if_pos hon]
    simp only [his, if_true]
  · unfold check_battery_binary_sensor
    rw [if_pos hon]
    simp only [his, Bool.false_eq_true, if_false]
  · unfold check_battery_binary_sensor
    rw [if_neg hoff]
  · have hdata := congrArg String.data heq
    simp only [String.data_append] at hdata
    have := List.append_cancel_left hdata
    exact absurd (congrArg List.length this) (by decide)

/-- Witness for C8 on `binary_sensor.x_islow` in state `"on"`. -/
theorem binary_indicator_classification_witness :
    (is_battery_binary_sensor "binary_sensor.x_islow" = true) ∧
    ((EntityState.mk (some "on") ⟨none, some "X", none⟩).state = some "on" →
      containsTerm "binary_sensor.x_islow" "islow" = true →
      check_battery_binary_sensor "binary_sensor.x_islow"
        ⟨some "on", ⟨none, some "X", none⟩⟩ ([], []) =
        ([] ++ ["• " ++ ((Option.some "X").getD "binary_sensor.x_islow") ++
          ": KRITISK LÅG BATTERI"], [])) :=
  ⟨by decide,
    (binary_indicator_classification "binary_sensor.x_islow"
      ⟨some "on", ⟨none, some "X", none⟩⟩ ([], []) (by decide)).1⟩

/-- C5, counterexample.  Entity `sensor.a` with display name `X`,
measurement unit `"V"` and reading `"5"` produces the critical
description line `"• X: 5.0%"`: it is not
`"<display-name>: <level><unit-or-empty>%"` — it carries a leading
bullet, and the unit attribute `"V"` does not occur in it at all (with
the level rendered either as `"5"` or as Python's `"5.0"`). -/
theorem description_line_counterexample :
    check_battery_sensor ⟨[], [], 20, 10⟩ "sensor.a"
      ⟨some "5", ⟨some "battery", some "X", some "V"⟩⟩ ([], []) = (["• X: 5.0%"], []) ∧
    "• X: 5.0%" ≠ "X: 5.0V%" ∧ "• X: 5.0%" ≠ "X: 5V%" ∧
    hasSub "V".toList "• X: 5.0%".toList = false := by
  refine ⟨by decide, by decide, by decide, by decide⟩

/-- C5, amended.  For a power-level report producing a Critical or Low
finding, the rendered description line is exactly
`"• <display-name>: <level>%"` where the display name is the
`friendly_name` attribute if present and otherwise the raw identifier,
and the level is the Python float rendering of the parsed reading; the
measurement unit attribute is never part of the line (it is used only in
logging). -/
theorem description_line_format (cfg : Config) (entity_key : String)
    (entity : EntityState) (acc : List String × List String) (s : String) (r : ℚ)
    (hskip : (["charging_status", "recharge", "power"].any (containsTerm entity_key)) = false)
    (hstate : entity.state = some s)
    (hs1 : s ≠ "unavailable") (hs2 : s ≠ "unknown")
    (hr : parseFloat s = some r) (hlow : r ≤ cfg.low_battery_threshold) :
    check_battery_sensor cfg entity_key entity acc =
      (if r ≤ cfg.critical_battery_threshold then
        (acc.1 ++ ["• " ++ entity.attributes.friendly_name.getD entity_key ++ ": " ++
          renderPyFloat r ++ "%"], acc.2)
      else
        (acc.1, acc.2 ++ ["• " ++ entity.attributes.friendly_name.getD entity_key ++ ": " ++
          renderPyFloat r ++ "%"])) := by
  unfold check_battery_sensor
  rw [if_neg (by simp [hskip]), hstate]
  dsimp only
  rw [if_neg (by simp [hs1, hs2])]
  unfold evaluate_battery_level
  rw [hr]
  dsimp only
  rcases le_or_lt r cfg.critical_battery_threshold with hc | hc
  · rw [if_pos hc, if_pos hc]
  · rw [if_neg (not_le.mpr hc), if_neg (not_le.mpr hc), if_pos hlow]

/-- Witness for the amended C5 on reading `"5"` with thresholds
(10, 20). -/
theorem description_line_format_witness :
    ((["charging_status", "recharge", "power"].any (containsTerm "sensor.a")) = false ∧
     (EntityState.mk (some "5") ⟨some "battery", some "X", some "V"⟩).state = some "5" ∧
     "5" ≠ "unavailable" ∧ "5" ≠ "unknown" ∧
     parseFloat "5" = some 5 ∧ (5 : ℚ) ≤ (20 : ℚ)) ∧
    check_battery_sensor ⟨[], [], 20, 10⟩ "sensor.a"
      ⟨some "5", ⟨some "battery", some "X", some "V"⟩⟩ ([], []) =
      (if (5 : ℚ) ≤ (10 : ℚ) then
        (([] : List String) ++ ["• " ++ (Option.some "X").getD "sensor.a" ++ ": " ++
          renderPyFloat 5 ++ "%"], ([] : List String))
      else
        (([] : List String), ([] : List String) ++ ["• " ++ (Option.some "X").getD "sensor.a" ++ ": " ++
          renderPyFloat 5 ++ "%"])) :=
  ⟨⟨by decide, rfl, by decide, by decide, by decide, by decide⟩,
    description_line_format ⟨[], [], 20, 10⟩ "sensor.a"
      ⟨some "5", ⟨some "battery", some "X", some "V"⟩⟩ ([], []) "5" 5
      (by decide) rfl (by decide) (by decide) (by decide) (by decide)⟩

/-- C2.  The scan's output lists are the critical and low buckets of the
tagged findings, and an identifier on the exclude list is the source of
no tagged finding whatsoever — membership in `exclude` short-circuits
the loop before any classification, so an excluded entity contributes no
finding to either output list regardless of its reading. -/
theorem excluded_identifier_contributes_nothing (cfg : Config)
    (states : List (String × EntityState)) (k : String)
    (hk : k ∈ cfg.exclude_list) :
    aggregate_findings cfg states =
      (crit_of (tagged_findings cfg states), low_of (tagged_findings cfg states)) ∧
    ∀ x ∈ tagged_findings cfg states, x.1 ≠ k := by
  refine ⟨aggregate_eq_tagged cfg states, ?_⟩
  intro x hx
  unfold tagged_findings at hx
  rw [List.mem_filterMap] at hx
  obtain ⟨k2, _, hk2⟩ := hx
  unfold tagged_contribution key_contribution at hk2
  by_cases hex : k2 ∈ cfg.exclude_list
  · rw [if_pos hex] at hk2
    exact absurd hk2 (by simp)
  · rw [if_neg hex] at hk2
    rw [Option.map_eq_some'] at hk2
    obtain ⟨bd, _, hbd⟩ := hk2
    intro hxk
    rw [← hbd] at hxk
    have : k2 = k := hxk
    rw [this] at hex
    exact hex hk

/-- Witness for C2: `sensor.a` is excluded and reports a critical-level
reading, yet no finding carries it as a source. -/
theorem excluded_identifier_contributes_nothing_witness :
    ("sensor.a" ∈ (Config.mk [] ["sensor.a"] 20 10).exclude_list) ∧
    (aggregate_findings ⟨[], ["sensor.a"], 20, 10⟩
        [("sensor.b", ⟨some "15", ⟨some "battery", some "B", some "%"⟩⟩),
         ("sensor.a", ⟨some "5", ⟨some "battery", some "A", some "%"⟩⟩)] =
      (crit_of (tagged_findings ⟨[], ["sensor.a"], 20, 10⟩
        [("sensor.b", ⟨some "15", ⟨some "battery", some "B", some "%"⟩⟩),
         ("sensor.a", ⟨some "5", ⟨some "battery", some "A", some "%"⟩⟩)]),
       low_of (tagged_findings ⟨[], ["sensor.a"], 20, 10⟩
        [("sensor.b", ⟨some "15", ⟨some "battery", some "B", some "%"⟩⟩),
         ("sensor.a", ⟨some "5", ⟨some "battery", some "A", some "%"⟩⟩)])) ∧
    ∀ x ∈ tagged_findings ⟨[], ["sensor.a"], 20, 10⟩
        [("sensor.b", ⟨some "15", ⟨some "battery", some "B", some "%"⟩⟩),
         ("sensor.a", ⟨some "5", ⟨some "battery", some "A", some "%"⟩⟩)],
      x.1 ≠ "sensor.a") :=
  ⟨by decide,
    excluded_identifier_contributes_nothing ⟨[], ["sensor.a"], 20, 10⟩
      [("sensor.b", ⟨some "15", ⟨some "battery", some "B", some "%"⟩⟩),
       ("sensor.a", ⟨some "5", ⟨some "battery", some "A", some "%"⟩⟩)]
      "sensor.a" (by decide)⟩

/-- C6.  The scan's output lists are the buckets of the tagged findings;
the tagged findings' source identifiers form a sublist of the sorted
identifier iteration (qualifying entities in scan order, no re-sorting),
and the source identifiers of the critical bucket and of the low bucket
are each in lexicographic (Python string) order. -/
theorem aggregator_output_in_scan_order (cfg : Config)
    (states : List (String × EntityState)) :
    aggregate_findings cfg states =
      (crit_of (tagged_findings cfg states), low_of (tagged_findings cfg states)) ∧
    ((tagged_findings cfg states).map (fun x => x.1)).Sublist (sorted_keys states) ∧
    List.Pairwise (fun a b => key_le a b = true)
      (((tagged_findings cfg states).filter (fun x => x.2.1)).map (fun x => x.1)) ∧
    List.Pairwise (fun a b => key_le a b = true)
      (((tagged_findings cfg states).filter (fun x => !x.2.1)).map (fun x => x.1)) := by
  have hsub : ((tagged_findings cfg states).map (fun x => x.1)).Sublist (sorted_keys states) :=
    tagged_keys_sublist cfg states (sorted_keys states)
  have hall : List.Pairwise (fun a b => key_le a b = true)
      ((tagged_findings cfg states).map (fun x => x.1)) :=
    (sorted_keys_sorted states).sublist hsub
  refine ⟨aggregate_eq_tagged cfg states, hsub, ?_, ?_⟩
  · exact hall.sublist ((List.filter_sublist (tagged_findings cfg states)).map _)
  · exact hall.sublist ((List.filter_sublist (tagged_findings cfg states)).map _)

/-! ### Dispatcher lemmas -/

theorem notify_persons_cons (p : Person) (ps : List Person) (d : String → Bool)
    (now : ℤ) (st : CooldownState) :
    notify_persons (p :: ps) d now st =
      ((notify_persons ps d now (notify_step d now st p).1).1,
       (notify_step d now st p).2 ++ (notify_persons ps d now (notify_step d now st p).1).2) :=
  rfl

/-- The cooldown entry of `a` is written only by a successful delivery to
`a`; with `a`'s deliveries failing, any dispatch call leaves it as it
was. -/
theorem notify_persons_state_at (a : String) (d : String → Bool)
    (hfail : d a = false) :
    ∀ (persons : List Person) (now : ℤ) (st : CooldownState),
      (notify_persons persons d now st).1 a = st a := by
  intro persons
  induction persons with
  | nil => intro now st; rfl
  | cons p ps ih =>
    intro now st
    rw [notify_persons_cons]
    rcases hpn : p.notify with _ | addr
    · simp only [notify_step, hpn]
      exact ih now st
    · simp only [notify_step, hpn]
      by_cases ha : addr = ""
      · rw [if_pos ha]
        exact ih now st
      · rw [if_neg ha]
        by_cases hsupp : 0 < p.cooldown ∧ now - st addr < p.cooldown
        · rw [if_pos hsupp]
          exact ih now st
        · rw [if_neg hsupp]
          by_cases hd : d addr = true
          · rw [if_pos hd]
            dsimp only
            rw [ih now (set_cooldown st addr now)]
            unfold set_cooldown
            have : a ≠ addr := by
              intro h
              rw [h] at hfail
              rw [hfail] at hd
              exact Bool.false_ne_true hd
            rw [if_neg this]
          · rw [if_neg hd]
            exact ih now st

/-- What one dispatch call does about address `a` when every configured
person with address `a` has cooldown `c > 0`: either no send to `a`
happened and `a`'s cooldown entry is untouched, or exactly one send to
`a` happened, it was allowed by the cooldown (`st a + c ≤ now`), and the
entry was set to `now`. -/
theorem notify_persons_sends (a : String) (c : ℤ) (hc : 0 < c) :
    ∀ (persons : List Person),
      (∀ p ∈ persons, p.notify = some a → p.cooldown = c) →
      ∀ (d : String → Bool) (now : ℤ) (st : CooldownState),
      (sends_to a (notify_persons persons d now st).2 = [] ∧
        (notify_persons persons d now st).1 a = st a) ∨
      (sends_to a (notify_persons persons d now st).2 = [(a, true)] ∧
        st a + c ≤ now ∧ (notify_persons persons d now st).1 a = now) := by
  intro persons
  induction persons with
  | nil =>
    intro _ d now st
    left
    exact ⟨rfl, rfl⟩
  | cons p ps ih =>
    intro hall d now st
    have hallps : ∀ q ∈ ps, q.notify = some a → q.cooldown = c :=
      fun q hq => hall q (List.mem_cons_of_mem p hq)
    rw [notify_persons_cons]
    rcases hpn : p.notify with _ | addr
    · simp only [notify_step, hpn, List.nil_append]
      exact ih hallps d now st
    · simp only [notify_step, hpn]
      by_cases ha : addr = ""
      · rw [if_pos ha]
        simp only [List.nil_append]
        exact ih hallps d now st
      · rw [if_neg ha]
        by_cases hsupp : 0 < p.cooldown ∧ now - st addr < p.cooldown
        · rw [if_pos hsupp]
          simp only [List.nil_append]
          exact ih hallps d now st
        · rw [if_neg hsupp]
          by_cases hd : d addr = true
          · rw [if_pos hd]
            dsimp only
            by_cases haa : addr = a
            · subst haa
              have hcool : p.cooldown = c := hall p (List.mem_cons_self p ps) hpn
              have hge : st addr + c ≤ now := by
                rw [hcool] at hsupp
                rcases lt_or_le (now - st addr) c with h | h
                · exact absurd ⟨hc, h⟩ hsupp
                · omega
              have hsetaddr : set_cooldown st addr now addr = now := by
                unfold set_cooldown
                rw [if_pos rfl]
              rcases ih hallps d now (set_cooldown st addr now) with ⟨hse, hst⟩ | ⟨_, hb, _⟩
              · right
                refine ⟨?_, hge, by rw [hst, hsetaddr]⟩
                show sends_to addr ([(addr, true)] ++ _) = [(addr, true)]
                unfold sends_to at hse ⊢
                simp [hse]
              · exfalso
                rw [hsetaddr] at hb
                omega
            · have hstp : set_cooldown st addr now a = st a := by
                unfold set_cooldown
                rw [if_neg (fun h => haa h.symm)]
              have hdrop : sends_to a ((addr, true) :: (notify_persons ps d now
                  (set_cooldown st addr now)).2) =
                  sends_to a (notify_persons ps d now (set_cooldown st addr now)).2 := by
                unfold sends_to
                rw [List.filter_cons]
                simp [haa]
              rcases ih hallps d now (set_cooldown st addr now) with ⟨hse, hst⟩ | ⟨hse, hb, hst⟩
              · left
                refine ⟨?_, by rw [hst, hstp]⟩
                show sends_to a ([(addr, true)] ++ _) = []
                rw [List.singleton_append, hdrop, hse]
              · right
                refine ⟨?_, by rw [hstp] at hb; exact hb, hst⟩
                show sends_to a ([(addr, true)] ++ _) = [(a, true)]
                rw [List.singleton_append, hdrop, hse]
          · rw [if_neg hd]
            dsimp only
            have hdrop : ∀ l : List (String × Bool),
                sends_to a ((addr, false) :: l) = sends_to a l := by
              intro l
              unfold sends_to
              rw [List.filter_cons]
              simp
            rcases ih hallps d now st with ⟨hse, hst⟩ | ⟨hse, hb, hst⟩
            · left
              refine ⟨?_, hst⟩
              show sends_to a ([(addr, false)] ++ _) = []
              rw [List.singleton_append, hdrop, hse]
            · right
              refine ⟨?_, hb, hst⟩
              show sends_to a ([(addr, false)] ++ _) = [(a, true)]
              rw [List.singleton_append, hdrop, hse]

theorem sent_times_map (a : String) (t : ℤ) (evs : List (String × Bool)) :
    sent_times_to a (evs.map (fun e => (t, e))) = (sends_to a evs).map (fun _ => t) := by
  induction evs with
  | nil => rfl
  | cons e es ih =>
    unfold sent_times_to sends_to at ih ⊢
    rw [List.map_cons, List.filter_cons, List.filter_cons]
    by_cases h : (e.1 == a && e.2) = true
    · simp only [h, if_pos]
      rw [List.map_cons, List.map_cons, ih]
    · simp only [h]
      rw [if_neg (by simp [h]), if_neg (by simp [h]), ih]

theorem sent_times_append (a : String) (l1 l2 : List (ℤ × String × Bool)) :
    sent_times_to a (l1 ++ l2) = sent_times_to a l1 ++ sent_times_to a l2 := by
  unfold sent_times_to
  rw [List.filter_append, List.map_append]

/-- Over any sequence of dispatch calls, the times of the successful
sends to `a` are pairwise at least `c` apart, and each is at least `c`
after the initial cooldown entry of `a`. -/
theorem run_dispatches_rate (a : String) (c : ℤ) (hc : 0 < c) (persons : List Person)
    (hall : ∀ p ∈ persons, p.notify = some a → p.cooldown = c) :
    ∀ (calls : List (ℤ × (String → Bool))) (st0 : CooldownState),
      List.Pairwise (fun t u : ℤ => t + c ≤ u)
        (sent_times_to a (run_dispatches persons calls st0).2) ∧
      ∀ t ∈ sent_times_to a (run_dispatches persons calls st0).2, st0 a + c ≤ t := by
  intro calls
  induction calls with
  | nil =>
    intro st0
    exact ⟨List.Pairwise.nil, by intro t ht; simp [sent_times_to, run_dispatches] at ht⟩
  | cons call rest ih =>
    intro st0
    obtain ⟨t1, d1⟩ := call
    have hcons : run_dispatches persons ((t1, d1) :: rest) st0 =
        ((run_dispatches persons rest (notify_persons persons d1 t1 st0).1).1,
         (notify_persons persons d1 t1 st0).2.map (fun e => (t1, e)) ++
           (run_dispatches persons rest (notify_persons persons d1 t1 st0).1).2) := rfl
    rw [hcons]
    dsimp only
    rw [sent_times_append, sent_times_map]
    rcases notify_persons_sends a c hc persons hall d1 t1 st0 with ⟨hse, hst⟩ | ⟨hse, hb, hst⟩
    · rw [hse]
      simp only [List.map_nil, List.nil_append]
      have h := ih (notify_persons persons d1 t1 st0).1
      rw [hst] at h
      exact h
    · rw [hse]
      simp only [List.map_cons, List.map_nil, List.singleton_append]
      obtain ⟨ihp, ihb⟩ := ih (notify_persons persons d1 t1 st0).1
      rw [hst] at ihb
      constructor
      · exact List.Pairwise.cons (fun u hu => ihb u hu) ihp
      · intro t ht
        rcases List.mem_cons.mp ht with rfl | ht2
        · exact hb
        · have := ihb t ht2
          omega

/-- A dispatch call arriving while `a` is inside its cooldown window
makes no delivery attempt to `a` and leaves `a`'s cooldown entry
untouched. -/
theorem notify_persons_suppressed (a : String) (c : ℤ) (hc : 0 < c) :
    ∀ (persons : List Person),
      (∀ p ∈ persons, p.notify = some a → p.cooldown = c) →
      ∀ (d : String → Bool) (now : ℤ) (st : CooldownState), now - st a < c →
      (notify_persons persons d now st).2.all (fun e => !(e.1 == a)) = true ∧
      (notify_persons persons d now st).1 a = st a := by
  intro persons
  induction persons with
  | nil => intro _ d now st _; exact ⟨rfl, rfl⟩
  | cons p ps ih =>
    intro hall d now st hsup
    have hallps : ∀ q ∈ ps, q.notify = some a → q.cooldown = c :=
      fun q hq => hall q (List.mem_cons_of_mem p hq)
    rw [notify_persons_cons]
    rcases hpn : p.notify with _ | addr
    · simp only [notify_step, hpn, List.nil_append]
      exact ih hallps d now st hsup
    · simp only [notify_step, hpn]
      by_cases ha : addr = ""
      · rw [if_pos ha]
        simp only [List.nil_append]
        exact ih hallps d now st hsup
      · rw [if_neg ha]
        by_cases haa : addr = a
        · subst haa
          have hcool : p.cooldown = c := hall p (List.mem_cons_self p ps) hpn
          have hguard : 0 < p.cooldown ∧ now - st addr < p.cooldown := by
            rw [hcool]
            exact ⟨hc, hsup⟩
          rw [if_pos hguard]
          simp only [List.nil_append]
          exact ih hallps d now st hsup
        · have hstp : ∀ v : ℤ, set_cooldown st addr v a = st a := by
            intro v
            unfold set_cooldown
            rw [if_neg (fun h => haa h.symm)]
          by_cases hsupp : 0 < p.cooldown ∧ now - st addr < p.cooldown
          · rw [if_pos hsupp]
            simp only [List.nil_append]
            exact ih hallps d now st hsup
          · rw [if_neg hsupp]
            by_cases hd : d addr = true
            · rw [if_pos hd]
              dsimp only
              have hsup2 : now - set_cooldown st addr now a < c := by
                rw [hstp]
                exact hsup
              obtain ⟨h1, h2⟩ := ih hallps d now (set_cooldown st addr now) hsup2
              refine ⟨?_, by rw [h2, hstp]⟩
              show ([(addr, true)] ++ _).all _ = true
              rw [List.all_append, h1]
              simp [haa]
            · rw [if_neg hd]
              dsimp only
              obtain ⟨h1, h2⟩ := ih hallps d now st hsup
              refine ⟨?_, h2⟩
              show ([(addr, false)] ++ _).all _ = true
              rw [List.all_append, h1]
              simp [haa]

/-- C3.  For a recipient address `a` whose configured cooldown is
`c > 0`, over any sequence of dispatch calls with monotonically
increasing `now` the successful sends to `a` are pairwise at least `c`
apart (so at most one message falls in any window shorter than `c`);
and a dispatch call arriving with `now - cooldown_state[a] < c` makes no
delivery attempt to `a` and leaves `a`'s cooldown entry unchanged. -/
theorem dispatch_cooldown_rate_limit
    (persons : List Person) (a : String) (c : ℤ)
    (calls : List (ℤ × (String → Bool))) (st0 : CooldownState)
    (d2 : String → Bool) (now2 : ℤ) (st2 : CooldownState)
    (hc : 0 < c)
    (hall : ∀ p ∈ persons, p.notify = some a → p.cooldown = c)
    (hmono : List.Chain' (fun t u : ℤ => t ≤ u) (calls.map Prod.fst))
    (hsup : now2 - st2 a < c) :
    List.Pairwise (fun t u : ℤ => t + c ≤ u)
      (sent_times_to a (run_dispatches persons calls st0).2) ∧
    (notify_persons persons d2 now2 st2).2.all (fun e => !(e.1 == a)) = true ∧
    (notify_persons persons d2 now2 st2).1 a = st2 a := by
  obtain ⟨h1, h2⟩ := notify_persons_suppressed a c hc persons hall d2 now2 st2 hsup
  exact ⟨(run_dispatches_rate a c hc persons hall calls st0).1, h1, h2⟩

/-- Witness for C3: one recipient with cooldown 3600, calls at times 0,
1800 and 3601, plus a suppressed call at time 10. -/
theorem dispatch_cooldown_rate_limit_witness :
    ((0 : ℤ) < 3600 ∧
     (∀ p ∈ [Person.mk (some "n") (some "a") 3600], p.notify = some "a" → p.cooldown = 3600) ∧
     List.Chain' (fun t u : ℤ => t ≤ u)
       (([((0 : ℤ), fun _ : String => true), (1800, fun _ => true),
          (3601, fun _ => true)]).map Prod.fst) ∧
     (10 : ℤ) - (fun _ : String => (0 : ℤ)) "a" < 3600) ∧
    (List.Pairwise (fun t u : ℤ => t + 3600 ≤ u)
      (sent_times_to "a" (run_dispatches [Person.mk (some "n") (some "a") 3600]
        [((0 : ℤ), fun _ : String => true), (1800, fun _ => true), (3601, fun _ => true)]
        (fun _ => -3600)).2) ∧
     (notify_persons [Person.mk (some "n") (some "a") 3600] (fun _ => true) 10
        (fun _ => 0)).2.all (fun e => !(e.1 == "a")) = true ∧
     (notify_persons [Person.mk (some "n") (some "a") 3600] (fun _ => true) 10
        (fun _ => 0)).1 "a" = (fun _ : String => (0 : ℤ)) "a") :=
  ⟨⟨by decide, by decide,
     by
       simp only [List.map_cons, List.map_nil]
       exact List.chain'_cons.mpr ⟨by norm_num,
         List.chain'_cons.mpr ⟨by norm_num, List.chain'_singleton _⟩⟩,
     by decide⟩,
    dispatch_cooldown_rate_limit [Person.mk (some "n") (some "a") 3600] "a" 3600
      [((0 : ℤ), fun _ : String => true), (1800, fun _ => true), (3601, fun _ => true)]
      (fun _ => -3600) (fun _ => true) 10 (fun _ => 0)
      (by decide) (by decide)
      (by
        simp only [List.map_cons, List.map_nil]
        exact List.chain'_cons.mpr ⟨by norm_num,
          List.chain'_cons.mpr ⟨by norm_num, List.chain'_singleton _⟩⟩)
      (by decide)⟩

/-- C9.  A recipient whose delivery raises contributes one failed
attempt, the scan continues with the remaining recipients exactly as if
that recipient's iteration had only logged (the cooldown state handed to
the rest is the untouched one), and the failing recipient's cooldown
entry is unchanged at the end of the whole call — it is set to `now`
only by a successful delivery. -/
theorem delivery_failure_is_nonfatal
    (persons : List Person) (p : Person) (a : String)
    (d : String → Bool) (now : ℤ) (st : CooldownState)
    (hp : p.notify = some a) (ha : a ≠ "")
    (hns : ¬(0 < p.cooldown ∧ now - st a < p.cooldown))
    (hfail : d a = false) :
    notify_persons (p :: persons) d now st =
      ((notify_persons persons d now st).1,
       (a, false) :: (notify_persons persons d now st).2) ∧
    (notify_persons (p :: persons) d now st).1 a = st a := by
  have hstep : notify_step d now st p = (st, [(a, false)]) := by
    unfold notify_step
    rw [hp]
    dsimp only
    rw [if_neg ha, if_neg hns]
    simp [hfail]
  constructor
  · rw [notify_persons_cons, hstep]
    rfl
  · rw [notify_persons_cons, hstep]
    dsimp only
    exact notify_persons_state_at a d hfail persons now st

/-- Witness for C9: delivery to `"a"` fails while the following
recipient `"b"` still gets its attempt. -/
theorem delivery_failure_is_nonfatal_witness :
    ((Person.mk (some "n") (some "a") 3600).notify = some "a" ∧ "a" ≠ "" ∧
     ¬(0 < (Person.mk (some "n") (some "a") 3600).cooldown ∧
        (10 : ℤ) - (fun _ : String => (-3600 : ℤ)) "a" <
          (Person.mk (some "n") (some "a") 3600).cooldown) ∧
     (fun x : String => x == "b") "a" = false) ∧
    (notify_persons (Person.mk (some "n") (some "a") 3600 ::
        [Person.mk (some "m") (some "b") 0]) (fun x => x == "b") 10 (fun _ => -3600) =
      ((notify_persons [Person.mk (some "m") (some "b") 0]
          (fun x => x == "b") 10 (fun _ => -3600)).1,
       ("a", false) :: (notify_persons [Person.mk (some "m") (some "b") 0]
          (fun x => x == "b") 10 (fun _ => -3600)).2) ∧
     (notify_persons (Person.mk (some "n") (some "a") 3600 ::
        [Person.mk (some "m") (some "b") 0]) (fun x => x == "b") 10
        (fun _ => -3600)).1 "a" = (fun _ : String => (-3600 : ℤ)) "a") :=
  ⟨⟨rfl, by decide, by decide, by decide⟩,
    delivery_failure_is_nonfatal [Person.mk (some "m") (some "b") 0]
      (Person.mk (some "n") (some "a") 3600) "a" (fun x => x == "b") 10
      (fun _ => -3600) rfl (by decide) (by decide) (by decide)⟩

/-! ### Token-splitting lemmas -/

theorem splitOnDot_ne_nil : ∀ cs : List Char, splitOnDot cs ≠ [] := by
  intro cs
  cases cs with
  | nil => simp [splitOnDot]
  | cons c rest =>
    unfold splitOnDot
    cases splitOnDot rest with
    | nil => simp
    | cons s ss =>
      by_cases h : c = '.' <;> simp [h]

theorem splitOnDot_cons (c : Char) (rest : List Char) :
    splitOnDot (c :: rest) =
      match splitOnDot rest with
      | [] => [[]]
      | s :: ss => if c = '.' then [] :: s :: ss else (c :: s) :: ss := rfl

theorem splitOnDot_no_dot (cs : List Char) (h : '.' ∉ cs) : splitOnDot cs = [cs] := by
  induction cs with
  | nil => rfl
  | cons c cs ih =>
    have hc : c ≠ '.' := fun hcc => h (hcc ▸ List.mem_cons_self c cs)
    rw [splitOnDot_cons, ih (fun hm => h (List.mem_cons_of_mem c hm))]
    dsimp only
    rw [if_neg hc]

theorem splitOnDot_append (xs ys : List Char) (h : '.' ∉ xs) :
    splitOnDot (xs ++ '.' :: ys) = xs :: splitOnDot ys := by
  induction xs with
  | nil =>
    rw [List.nil_append]
    cases hsp : splitOnDot ys with
    | nil => exact absurd hsp (splitOnDot_ne_nil ys)
    | cons s ss =>
      rw [splitOnDot_cons, hsp]
      dsimp only
      rw [if_pos rfl]
  | cons x xs ih =>
    have hx : x ≠ '.' := fun hxx => h (hxx ▸ List.mem_cons_self x xs)
    rw [List.cons_append, splitOnDot_cons, ih (fun hm => h (List.mem_cons_of_mem x hm))]
    dsimp only
    rw [if_neg hx]

theorem toList_action_directive (app_name addr : String) :
    (action_directive app_name addr).toList =
      app_name.toList ++ '.' :: ("ignore".toList ++ '.' :: addr.toList) := by
  show (app_name ++ ".ignore." ++ addr).data =
    app_name.data ++ '.' :: ("ignore".data ++ '.' :: addr.data)
  rw [String.data_append, String.data_append]
  simp

theorem splitDot_action_directive (app_name addr : String)
    (hn : '.' ∉ app_name.toList) :
    splitDot (action_directive app_name addr) =
      app_name :: "ignore" :: splitDot addr := by
  unfold splitDot
  rw [toList_action_directive, splitOnDot_append _ _ hn,
      splitOnDot_append _ _ (by decide)]
  rfl

/-! ### Start-of-day bounds -/

theorem start_of_day_epoch_bounds (tz_offset now : ℤ) :
    now - 86400 < start_of_day_epoch tz_offset now ∧
    start_of_day_epoch tz_offset now ≤ now := by
  unfold start_of_day_epoch
  omega

/-- C4, counterexample.  With the app named `"app"`, timezone offset 0
and `now` at noon (43200) of epoch day 0, the token
`"app.ignore.addr1"` sets the cooldown entry of `addr1` to 259200
(start of the current day plus 3 days), which is smaller than
`now + 3 days = 302400`: the entry is not "at least now + 3 days". -/
theorem ignore_action_counterexample :
    phone_action "app" 0 43200 "app.ignore.addr1" (fun _ => 0) "addr1" = 259200 ∧
    ¬((43200 : ℤ) + 259200 ≤ 259200) := by
  exact ⟨by decide, by decide⟩

/-- C4, amended.  A token of the form
`<this-instance-namespace>.ignore.<address>` (address without dots) sets
the cooldown entry for that address to start-of-current-day + 3 days —
a timestamp strictly greater than `now + 2` days and at most
`now + 3` days — and a token whose first dot-separated segment differs
from this instance's name leaves the cooldown state unchanged. -/
theorem ignore_action_extends_cooldown
    (app_name addr : String) (tz_offset now : ℤ) (st : CooldownState) (tok2 : String)
    (hn : '.' ∉ app_name.toList) (ha : '.' ∉ addr.toList)
    (hns : (splitDot tok2).head? ≠ some app_name) :
    phone_action app_name tz_offset now (action_directive app_name addr) st =
      set_cooldown st addr (start_of_day_epoch tz_offset now + 259200) ∧
    now + 172800 < start_of_day_epoch tz_offset now + 259200 ∧
    start_of_day_epoch tz_offset now + 259200 ≤ now + 259200 ∧
    phone_action app_name tz_offset now tok2 st = st := by
  obtain ⟨hb1, hb2⟩ := start_of_day_epoch_bounds tz_offset now
  refine ⟨?_, by omega, by omega, ?_⟩
  · unfold phone_action
    rw [splitDot_action_directive app_name addr hn]
    have haddr : splitDot addr = [addr] := by
      unfold splitDot
      rw [splitOnDot_no_dot addr.toList ha]
      rfl
    rw [haddr]
    dsimp only
    rw [if_neg (by simp), if_pos rfl]
  · unfold phone_action
    cases hsp : splitDot tok2 with
    | nil => rfl
    | cons a0 rest =>
      rw [hsp] at hns
      have hne : a0 ≠ app_name := by
        intro h
        exact hns (by rw [h]; rfl)
      cases rest with
      | nil => rfl
      | cons a1 rest2 =>
        cases rest2 with
        | nil => rfl
        | cons a2 rest3 =>
          dsimp only
          rw [if_pos hne]

/-- Witness for the amended C4 with offset 3600 and a foreign token. -/
theorem ignore_action_extends_cooldown_witness :
    (('.' ∉ "app".toList) ∧ ('.' ∉ "addr1".toList) ∧
     (splitDot "other.ignore.addr1").head? ≠ some "app") ∧
    (phone_action "app" 3600 50000 (action_directive "app" "addr1") (fun _ => 0) =
      set_cooldown (fun _ => 0) "addr1" (start_of_day_epoch 3600 50000 + 259200) ∧
     (50000 : ℤ) + 172800 < start_of_day_epoch 3600 50000 + 259200 ∧
     start_of_day_epoch 3600 50000 + 259200 ≤ (50000 : ℤ) + 259200 ∧
     phone_action "app" 3600 50000 "other.ignore.addr1" (fun _ => 0) = fun _ => 0) :=
  ⟨⟨by decide, by decide, by decide⟩,
    ignore_action_extends_cooldown "app" "addr1" 3600 50000 (fun _ => 0)
      "other.ignore.addr1" (by decide) (by decide) (by decide)⟩

/-- C10.  `phone_action` keys the cooldown entry by the third
dot-separated segment of the token.  When the dispatcher's embedded
address itself contains a dot (`addr = a ++ "." ++ b`), the
acknowledgement therefore writes the entry of the truncated key `a`,
which differs from the address `addr` whose entry `_notify_persons`
reads: the entry of `addr` is unchanged by the acknowledgement. -/
theorem ignore_action_truncates_dotted_address
    (app_name a b : String) (tz_offset now : ℤ) (st : CooldownState)
    (hn : '.' ∉ app_name.toList) (ha : '.' ∉ a.toList) :
    phone_action app_name tz_offset now (action_directive app_name (a ++ "." ++ b)) st =
      set_cooldown st a (start_of_day_epoch tz_offset now + 259200) ∧
    a ≠ a ++ "." ++ b ∧
    phone_action app_name tz_offset now (action_directive app_name (a ++ "." ++ b)) st
        (a ++ "." ++ b) = st (a ++ "." ++ b) := by
  have hdata : (a ++ "." ++ b).toList = a.toList ++ '.' :: b.toList := by
    show (a ++ "." ++ b).data = a.data ++ '.' :: b.data
    rw [String.data_append, String.data_append]
    simp
  have hsplit : splitDot (a ++ "." ++ b) = a :: splitDot b := by
    unfold splitDot
    rw [hdata, splitOnDot_append _ _ ha]
    rfl
  have hmain : phone_action app_name tz_offset now
      (action_directive app_name (a ++ "." ++ b)) st =
      set_cooldown st a (start_of_day_epoch tz_offset now + 259200) := by
    unfold phone_action
    rw [splitDot_action_directive _ _ hn, hsplit]
    cases hsb : splitDot b with
    | nil => exact absurd (by simpa [splitDot] using hsb) (by simp [splitOnDot_ne_nil])
    | cons s ss =>
      dsimp only
      rw [if_neg (by simp), if_pos rfl]
  have hne : a ≠ a ++ "." ++ b := by
    intro h
    have := congrArg (fun s : String => s.data.length) h
    have hdot : (".".data).length = 1 := rfl
    simp only [String.data_append, List.length_append, hdot] at this
    omega
  refine ⟨hmain, hne, ?_⟩
  rw [hmain]
  unfold set_cooldown
  rw [if_neg (fun h => hne h.symm)]

/-- Witness for C10 with the dotted address `"mobile_app_x.y"`. -/
theorem ignore_action_truncates_dotted_address_witness :
    (('.' ∉ "app".toList) ∧ ('.' ∉ "mobile_app_x".toList)) ∧
    (phone_action "app" 0 0 (action_directive "app" ("mobile_app_x" ++ "." ++ "y"))
        (fun _ => 5) =
      set_cooldown (fun _ => 5) "mobile_app_x" (start_of_day_epoch 0 0 + 259200) ∧
     "mobile_app_x" ≠ "mobile_app_x" ++ "." ++ "y" ∧
     phone_action "app" 0 0 (action_directive "app" ("mobile_app_x" ++ "." ++ "y"))
        (fun _ => 5) ("mobile_app_x" ++ "." ++ "y") =
       (fun _ : String => (5 : ℤ)) ("mobile_app_x" ++ "." ++ "y")) :=
  ⟨⟨by decide, by decide⟩,
    ignore_action_truncates_dotted_address "app" "mobile_app_x" "y" 0 0 (fun _ => 5)
      (by decide) (by decide)⟩

end BatteryCheck
